import Mathlib

/-!
Verification of the 2D Laplace solver in `laplace.ipynb`.

The notebook's solver logic:

```python
def finite_difference(U, dx):
    Nx, Ny = U.shape
    U_new = U.copy()
    for i in range(1, Nx-1):
        for j in range(1, Ny-1):
            U_new[i, j] = (U[i+1, j] + U[i-1, j] + U[i, j+1] + U[i, j-1]) / 4
    return U_new

for i in range(max_iter):
    U_new = finite_difference(U, dx)
    if np.max(np.abs(U - U_new)) < tol:
        print('Converged at iteration', i)
        break
    U = U_new
```

Fields are embedded as total functions `ℕ → ℕ → ℚ` with the shape `Nx × Ny`
carried separately (reads/writes outside `[0,Nx) × [0,Ny)` never occur in the
source loops).  The double loop writing into `U_new` while reading `U` is
embedded as a fold over the list of interior indices carrying the pair
`(U, U_new)`, exactly as the Python state evolves.
-/

namespace Laplace

/-- Pointwise write into a 2D field, the embedding of `A[i, j] = v`. -/
def update2 (f : ℕ → ℕ → ℚ) (i j : ℕ) (v : ℚ) : ℕ → ℕ → ℚ :=
  fun a b => if a = i ∧ b = j then v else f a b

/-- The interior index list: `(i, j)` for `i in range(1, Nx-1)`, `j in range(1, Ny-1)`,
in the source's traversal order. -/
def interiorIdx (Nx Ny : ℕ) : List (ℕ × ℕ) :=
  (List.range' 1 (Nx - 2)).flatMap fun i => (List.range' 1 (Ny - 2)).map fun j => (i, j)

/-- The right-hand side of the stencil update at `(i, j)`: the four-neighbor
average read from the field `U`. -/
def stencil (U : ℕ → ℕ → ℚ) (p : ℕ × ℕ) : ℚ :=
  (U (p.1 + 1) p.2 + U (p.1 - 1) p.2 + U p.1 (p.2 + 1) + U p.1 (p.2 - 1)) / 4

/-- One step of the loop body: the state is the pair `(U, U_new)`; the body reads
the `U` component and writes the `U_new` component at the current index. -/
def fd_step (s : (ℕ → ℕ → ℚ) × (ℕ → ℕ → ℚ)) (p : ℕ × ℕ) :
    (ℕ → ℕ → ℚ) × (ℕ → ℕ → ℚ) :=
  (s.1, update2 s.2 p.1 p.2 (stencil s.1 p))

/-- The whole loop of `finite_difference`: starting from `(U, U.copy())`, run the
body over every interior index.  The first component is the argument array, the
second the freshly written `U_new`.  `dx` is accepted and unused, as in the source. -/
def fd_pair (Nx Ny : ℕ) (dx : ℚ) (U : ℕ → ℕ → ℚ) :
    (ℕ → ℕ → ℚ) × (ℕ → ℕ → ℚ) :=
  (interiorIdx Nx Ny).foldl fd_step (U, U)

/-- `finite_difference(U, dx)`: the returned `U_new`. -/
def finite_difference (Nx Ny : ℕ) (dx : ℚ) (U : ℕ → ℕ → ℚ) : ℕ → ℕ → ℚ :=
  (fd_pair Nx Ny dx U).2

/-- All grid indices `(i, j)` with `i < Nx`, `j < Ny` (the whole array,
boundary included), as scanned by `np.max(np.abs(U - U_new))`. -/
def allIdx (Nx Ny : ℕ) : List (ℕ × ℕ) :=
  (List.range Nx).flatMap fun i => (List.range Ny).map fun j => (i, j)

/-- `np.max(np.abs(U - V))`: the maximum absolute entrywise difference over the
whole `Nx × Ny` array (`0` for an empty grid; all entries are `≥ 0`, so this
agrees with `np.max` whenever the grid is nonempty). -/
def residual (Nx Ny : ℕ) (U V : ℕ → ℕ → ℚ) : ℚ :=
  ((allIdx Nx Ny).map fun p => |U p.1 p.2 - V p.1 p.2|).foldr max 0

/-- Result of the iteration loop: the final field `U`, whether the convergence
test fired, the 0-based loop index printed at convergence, and the number of
sweeps (calls to `finite_difference`) performed. -/
structure SolveResult where
  field : ℕ → ℕ → ℚ
  converged : Bool
  convergedAt : Option ℕ
  iterations : ℕ

/-- The iteration loop with `fuel` remaining iterations and current loop index `i`.
On `residual < tol` the source breaks BEFORE `U = U_new`, so the converged branch
returns the pre-sweep field `U`. -/
def solveAux (Nx Ny : ℕ) (dx tol : ℚ) : ℕ → ℕ → (ℕ → ℕ → ℚ) → SolveResult
  | 0, _, U => ⟨U, false, none, 0⟩
  | fuel + 1, i, U =>
    if residual Nx Ny U (finite_difference Nx Ny dx U) < tol then
      ⟨U, true, some i, 1⟩
    else
      ⟨(solveAux Nx Ny dx tol fuel (i + 1) (finite_difference Nx Ny dx U)).field,
       (solveAux Nx Ny dx tol fuel (i + 1) (finite_difference Nx Ny dx U)).converged,
       (solveAux Nx Ny dx tol fuel (i + 1) (finite_difference Nx Ny dx U)).convergedAt,
       (solveAux Nx Ny dx tol fuel (i + 1) (finite_difference Nx Ny dx U)).iterations + 1⟩

/-- The solver: `for i in range(max_iter)` starting at index `0`. -/
def solve (Nx Ny : ℕ) (dx tol : ℚ) (max_iter : ℕ) (U : ℕ → ℕ → ℚ) : SolveResult :=
  solveAux Nx Ny dx tol max_iter 0 U

/-- `n` successive Jacobi sweeps of the field. -/
def sweeps (Nx Ny : ℕ) (dx : ℚ) : ℕ → (ℕ → ℕ → ℚ) → ℕ → ℕ → ℚ
  | 0, U => U
  | n + 1, U => sweeps Nx Ny dx n (finite_difference Nx Ny dx U)

/-- The 3 × 3 grid of the spec's minimal scenario: boundary `1.0`, interior `0.0`. -/
def U0grid : ℕ → ℕ → ℚ :=
  fun i j => if i = 0 ∨ i = 2 ∨ j = 0 ∨ j = 2 then 1 else 0

/-- The 3 × 3 field after one sweep of `U0grid`: the single interior point
becomes `1`. -/
def U1grid : ℕ → ℕ → ℚ :=
  update2 U0grid 1 1 1

/-! ### Basic lemmas about the embedded loop -/

theorem fd_step_fst (s : (ℕ → ℕ → ℚ) × (ℕ → ℕ → ℚ)) (p : ℕ × ℕ) :
    (fd_step s p).1 = s.1 := rfl

theorem foldl_fd_step_fst (l : List (ℕ × ℕ)) (A B : ℕ → ℕ → ℚ) :
    (l.foldl fd_step (A, B)).1 = A := by
  induction l generalizing B with
  | nil => rfl
  | cons p l ih => simpa [fd_step] using ih (update2 B p.1 p.2 (stencil A p))

theorem foldl_fd_step_snd (l : List (ℕ × ℕ)) (A B : ℕ → ℕ → ℚ) (i j : ℕ) :
    (l.foldl fd_step (A, B)).2 i j =
      if (i, j) ∈ l then stencil A (i, j) else B i j := by
  induction l generalizing B with
  | nil => simp
  | cons p l ih =>
    by_cases hmem : (i, j) ∈ l
    · simp [fd_step, ih, hmem]
    · by_cases hp : (i, j) = p
      · subst hp
        simp [fd_step, ih, hmem, update2]
      · have : ¬ (i = p.1 ∧ j = p.2) := by
          intro h
          exact hp (Prod.ext h.1 h.2)
        simp [fd_step, ih, hmem, update2, this, hp]

theorem mem_interiorIdx (Nx Ny i j : ℕ) :
    (i, j) ∈ interiorIdx Nx Ny ↔
      (1 ≤ i ∧ i ≤ Nx - 2) ∧ (1 ≤ j ∧ j ≤ Ny - 2) := by
  simp only [interiorIdx, List.mem_flatMap, List.mem_map, List.mem_range'_1,
    Prod.mk.injEq]
  constructor
  · rintro ⟨a, ⟨ha1, ha2⟩, b, ⟨hb1, hb2⟩, hai, hbj⟩
    subst hai; subst hbj
    omega
  · rintro ⟨⟨hi1, hi2⟩, ⟨hj1, hj2⟩⟩
    exact ⟨i, ⟨hi1, by omega⟩, j, ⟨hj1, by omega⟩, rfl, rfl⟩

/-- Pointwise description of one sweep: interior points get the four-neighbor
average of the OLD field, every other point keeps its old value. -/
theorem finite_difference_apply (Nx Ny : ℕ) (dx : ℚ) (U : ℕ → ℕ → ℚ) (i j : ℕ) :
    finite_difference Nx Ny dx U i j =
      if (1 ≤ i ∧ i ≤ Nx - 2) ∧ (1 ≤ j ∧ j ≤ Ny - 2) then
        (U (i + 1) j + U (i - 1) j + U i (j + 1) + U i (j - 1)) / 4
      else U i j := by
  rw [finite_difference, fd_pair, foldl_fd_step_snd]
  by_cases h : (1 ≤ i ∧ i ≤ Nx - 2) ∧ (1 ≤ j ∧ j ≤ Ny - 2)
  · rw [if_pos ((mem_interiorIdx Nx Ny i j).2 h), if_pos h]
    rfl
  · rw [if_neg (fun hm => h ((mem_interiorIdx Nx Ny i j).1 hm)), if_neg h]

theorem mem_allIdx (Nx Ny i j : ℕ) :
    (i, j) ∈ allIdx Nx Ny ↔ i < Nx ∧ j < Ny := by
  simp only [allIdx, List.mem_flatMap, List.mem_map, List.mem_range, Prod.mk.injEq]
  constructor
  · rintro ⟨a, ha, b, hb, hai, hbj⟩
    subst hai; subst hbj
    exact ⟨ha, hb⟩
  · rintro ⟨hi, hj⟩
    exact ⟨i, hi, j, hj, rfl, rfl⟩

/-! ### Lemmas about `foldr max 0` and the residual -/

theorem foldr_max_nonneg (l : List ℚ) : 0 ≤ l.foldr max 0 := by
  induction l with
  | nil => exact le_refl 0
  | cons x l ih => exact le_trans ih (le_max_right x _)

theorem le_foldr_max (l : List ℚ) (x : ℚ) (hx : x ∈ l) : x ≤ l.foldr max 0 := by
  induction l with
  | nil => cases hx
  | cons y l ih =>
    rcases List.mem_cons.1 hx with h | h
    · subst h
      exact le_max_left x _
    · exact le_trans (ih h) (le_max_right y _)

theorem foldr_max_eq_zero (l : List ℚ) (h : ∀ x ∈ l, x = 0) : l.foldr max 0 = 0 := by
  induction l with
  | nil => rfl
  | cons y l ih =>
    have hy : y = 0 := h y (List.mem_cons_self y l)
    have hl : l.foldr max 0 = 0 := ih fun x hx => h x (List.mem_cons_of_mem y hx)
    simp [hy, hl]

theorem foldr_max_mem_or_zero (l : List ℚ) :
    l.foldr max 0 ∈ l ∨ l.foldr max 0 = 0 := by
  induction l with
  | nil => exact Or.inr rfl
  | cons y l ih =>
    rcases max_choice y (l.foldr max 0) with h | h
    · exact Or.inl (by rw [List.foldr_cons, h]; exact List.mem_cons_self y l)
    · rcases ih with hm | hz
      · exact Or.inl (by rw [List.foldr_cons, h]; exact List.mem_cons_of_mem y hm)
      · exact Or.inr (by rw [List.foldr_cons, h, hz])

theorem residual_nonneg (Nx Ny : ℕ) (U V : ℕ → ℕ → ℚ) :
    0 ≤ residual Nx Ny U V :=
  foldr_max_nonneg _

theorem abs_sub_le_residual (Nx Ny : ℕ) (U V : ℕ → ℕ → ℚ) (i j : ℕ)
    (hi : i < Nx) (hj : j < Ny) :
    |U i j - V i j| ≤ residual Nx Ny U V :=
  le_foldr_max _ _ (List.mem_map.2 ⟨(i, j), (mem_allIdx Nx Ny i j).2 ⟨hi, hj⟩, rfl⟩)

theorem residual_eq_zero (Nx Ny : ℕ) (U V : ℕ → ℕ → ℚ)
    (h : ∀ i j, i < Nx → j < Ny → U i j = V i j) :
    residual Nx Ny U V = 0 := by
  apply foldr_max_eq_zero
  intro x hx
  rcases List.mem_map.1 hx with ⟨p, hp, hpx⟩
  rcases (mem_allIdx Nx Ny p.1 p.2).1 (by simpa using hp) with ⟨h1, h2⟩
  rw [← hpx, h p.1 p.2 h1 h2, sub_self, abs_zero]

theorem residual_attained (Nx Ny : ℕ) (U V : ℕ → ℕ → ℚ) :
    residual Nx Ny U V = 0 ∨
      ∃ i j, i < Nx ∧ j < Ny ∧ |U i j - V i j| = residual Nx Ny U V := by
  rcases foldr_max_mem_or_zero ((allIdx Nx Ny).map fun p => |U p.1 p.2 - V p.1 p.2|) with hm | hz
  · rcases List.mem_map.1 hm with ⟨p, hp, hpx⟩
    rcases (mem_allIdx Nx Ny p.1 p.2).1 (by simpa using hp) with ⟨h1, h2⟩
    exact Or.inr ⟨p.1, p.2, h1, h2, hpx⟩
  · exact Or.inl hz

/-! ### Lemmas about the iteration loop -/

theorem solveAux_converge (Nx Ny : ℕ) (dx tol : ℚ) (fuel i : ℕ) (U : ℕ → ℕ → ℚ)
    (h : residual Nx Ny U (finite_difference Nx Ny dx U) < tol) :
    solveAux Nx Ny dx tol (fuel + 1) i U = ⟨U, true, some i, 1⟩ := by
  simp only [solveAux]
  rw [if_pos h]

theorem solveAux_step (Nx Ny : ℕ) (dx tol : ℚ) (fuel i : ℕ) (U : ℕ → ℕ → ℚ)
    (h : ¬ residual Nx Ny U (finite_difference Nx Ny dx U) < tol) :
    solveAux Nx Ny dx tol (fuel + 1) i U =
      ⟨(solveAux Nx Ny dx tol fuel (i + 1) (finite_difference Nx Ny dx U)).field,
       (solveAux Nx Ny dx tol fuel (i + 1) (finite_difference Nx Ny dx U)).converged,
       (solveAux Nx Ny dx tol fuel (i + 1) (finite_difference Nx Ny dx U)).convergedAt,
       (solveAux Nx Ny dx tol fuel (i + 1) (finite_difference Nx Ny dx U)).iterations + 1⟩ := by
  simp only [solveAux]
  rw [if_neg h]

theorem solveAux_nonpos_tol (Nx Ny : ℕ) (dx tol : ℚ) (htol : tol ≤ 0) :
    ∀ (fuel i : ℕ) (U : ℕ → ℕ → ℚ),
      solveAux Nx Ny dx tol fuel i U = ⟨sweeps Nx Ny dx fuel U, false, none, fuel⟩ := by
  intro fuel
  induction fuel with
  | zero => intro i U; rfl
  | succ n ih =>
    intro i U
    have hres : ¬ residual Nx Ny U (finite_difference Nx Ny dx U) < tol :=
      not_lt.2 (le_trans htol (residual_nonneg Nx Ny U _))
    rw [solveAux_step Nx Ny dx tol n i U hres, ih (i + 1) (finite_difference Nx Ny dx U)]
    rfl

/-! ### One sweep on degenerate and concrete grids -/

theorem fd_no_interior (Nx Ny : ℕ) (dx : ℚ) (U : ℕ → ℕ → ℚ)
    (hdim : Nx < 3 ∨ Ny < 3) :
    finite_difference Nx Ny dx U = U := by
  funext i j
  rw [finite_difference_apply]
  exact if_neg (by omega)

theorem U1grid_center : U1grid 1 1 = 1 := by
  simp [U1grid, update2]

theorem U1grid_off_center (i j : ℕ) (h : ¬ (i = 1 ∧ j = 1)) : U1grid i j = U0grid i j := by
  simp only [U1grid, update2]
  rw [if_neg h]

theorem fd_U0grid : finite_difference 3 3 1 U0grid = U1grid := by
  funext i j
  rw [finite_difference_apply]
  by_cases h : i = 1 ∧ j = 1
  · rcases h with ⟨hi, hj⟩
    subst hi; subst hj
    rw [if_pos (by norm_num), U1grid_center]
    norm_num [U0grid]
  · rw [if_neg (by omega), U1grid_off_center i j h]

theorem fd_U1grid : finite_difference 3 3 1 U1grid = U1grid := by
  funext i j
  rw [finite_difference_apply]
  by_cases h : i = 1 ∧ j = 1
  · rcases h with ⟨hi, hj⟩
    subst hi; subst hj
    rw [if_pos (by norm_num)]
    rw [U1grid_off_center 2 1 (by omega), U1grid_off_center 0 1 (by omega),
      U1grid_off_center 1 2 (by omega), U1grid_off_center 1 0 (by omega), U1grid_center]
    norm_num [U0grid]
  · rw [if_neg (by omega)]

theorem res_U0 : residual 3 3 U0grid U1grid = 1 := by
  have hidx : allIdx 3 3 =
      [(0,0),(0,1),(0,2),(1,0),(1,1),(1,2),(2,0),(2,1),(2,2)] := rfl
  rw [residual, hidx]
  norm_num [U0grid, U1grid, update2, max_def, abs]

theorem res_fd_U0 : residual 3 3 U0grid (finite_difference 3 3 1 U0grid) = 1 := by
  rw [fd_U0grid]
  exact res_U0

theorem res_fd_U1 : residual 3 3 U1grid (finite_difference 3 3 1 U1grid) = 0 := by
  rw [fd_U1grid]
  exact residual_eq_zero 3 3 U1grid U1grid fun _ _ _ _ => rfl

theorem solve3x3_small_tol (t : ℚ) (h0 : 0 < t) (h1 : t < 1) (k : ℕ) :
    solve 3 3 1 t (k + 2) U0grid = ⟨U1grid, true, some 1, 2⟩ := by
  rw [solve, show k + 2 = (k + 1) + 1 from rfl,
    solveAux_step 3 3 1 t (k + 1) 0 U0grid
      (by rw [res_fd_U0]; exact not_lt.2 (le_of_lt h1)),
    fd_U0grid,
    solveAux_converge 3 3 1 t k 1 U1grid (by rw [res_fd_U1]; exact h0)]

theorem solve3x3_big_tol : solve 3 3 1 2 5 U0grid = ⟨U0grid, true, some 0, 1⟩ := by
  rw [solve, show (5 : ℕ) = 4 + 1 from rfl]
  exact solveAux_converge 3 3 1 2 4 0 U0grid (by rw [res_fd_U0]; norm_num)

theorem solve2x2_const : solve 2 2 1 1 1 (fun _ _ => (5 : ℚ)) =
    ⟨(fun _ _ => (5 : ℚ)), true, some 0, 1⟩ := by
  rw [solve, show (1 : ℕ) = 0 + 1 from rfl]
  apply solveAux_converge
  rw [fd_no_interior 2 2 1 _ (by omega),
    residual_eq_zero 2 2 _ _ fun _ _ _ _ => rfl]
  norm_num

theorem sweeps_one_U0grid : sweeps 3 3 1 1 U0grid = U1grid := by
  rw [show sweeps 3 3 1 1 U0grid = finite_difference 3 3 1 U0grid from rfl, fd_U0grid]

theorem solve_tol_zero : solve 3 3 1 0 1 U0grid = ⟨U1grid, false, none, 1⟩ := by
  rw [solve, solveAux_nonpos_tol 3 3 1 0 (le_refl 0) 1 0 U0grid, sweeps_one_U0grid]

/-- One sweep stays inside any interval containing all in-range values of the
old field: each interior update is the average of four in-range old values. -/
theorem fd_bounds (Nx Ny : ℕ) (dx : ℚ) (U : ℕ → ℕ → ℚ) (lo hi : ℚ)
    (h : ∀ i j, i < Nx → j < Ny → lo ≤ U i j ∧ U i j ≤ hi) :
    ∀ i j, i < Nx → j < Ny →
      lo ≤ finite_difference Nx Ny dx U i j ∧ finite_difference Nx Ny dx U i j ≤ hi := by
  intro i j hi hj
  rw [finite_difference_apply]
  split_ifs with hint
  · obtain ⟨⟨hi1, hi2⟩, hj1, hj2⟩ := hint
    have ha := h (i + 1) j (by omega) hj
    have hb := h (i - 1) j (by omega) hj
    have hc := h i (j + 1) hi (by omega)
    have hd := h i (j - 1) hi (by omega)
    constructor
    · rw [le_div_iff₀ (by norm_num : (0 : ℚ) < 4)]
      linarith [ha.1, hb.1, hc.1, hd.1]
    · rw [div_le_iff₀ (by norm_num : (0 : ℚ) < 4)]
      linarith [ha.2, hb.2, hc.2, hd.2]
  · exact h i j hi hj

theorem sweeps_bounds (Nx Ny : ℕ) (dx : ℚ) (lo hi : ℚ) :
    ∀ (n : ℕ) (U : ℕ → ℕ → ℚ),
      (∀ i j, i < Nx → j < Ny → lo ≤ U i j ∧ U i j ≤ hi) →
      ∀ i j, i < Nx → j < Ny →
        lo ≤ sweeps Nx Ny dx n U i j ∧ sweeps Nx Ny dx n U i j ≤ hi := by
  intro n
  induction n with
  | zero => intro U h; exact h
  | succ n ih =>
    intro U h
    exact ih (finite_difference Nx Ny dx U) (fd_bounds Nx Ny dx U lo hi h)

/-! ### Claims -/

/-- C1: one sweep maps `old` to `new` with, at every interior point
`(i, j)` (`1 ≤ i ≤ Nx-2`, `1 ≤ j ≤ Ny-2`, 0-indexed),
`new[i,j] = (old[i+1,j] + old[i-1,j] + old[i,j+1] + old[i,j-1]) / 4`, all four
neighbor reads taken from the pre-sweep field `old` (Jacobi variant). -/
theorem C1_jacobi_interior_update (Nx Ny : ℕ) (dx : ℚ) (U : ℕ → ℕ → ℚ) (i j : ℕ)
    (hi1 : 1 ≤ i) (hi2 : i ≤ Nx - 2) (hj1 : 1 ≤ j) (hj2 : j ≤ Ny - 2) :
    finite_difference Nx Ny dx U i j =
      (U (i + 1) j + U (i - 1) j + U i (j + 1) + U i (j - 1)) / 4 := by
  rw [finite_difference_apply, if_pos ⟨⟨hi1, hi2⟩, hj1, hj2⟩]

/-- Witness for C1 at the 3 × 3 grid's interior point `(1, 1)`. -/
theorem C1_jacobi_interior_update_witness :
    ((1 ≤ 1 ∧ 1 ≤ 3 - 2) ∧ (1 ≤ 1 ∧ 1 ≤ 3 - 2)) ∧
    finite_difference 3 3 1 U0grid 1 1 =
      (U0grid (1 + 1) 1 + U0grid (1 - 1) 1 + U0grid 1 (1 + 1) + U0grid 1 (1 - 1)) / 4 :=
  ⟨by decide,
   C1_jacobi_interior_update 3 3 1 U0grid 1 1 (by decide) (by decide) (by decide) (by decide)⟩

/-- C2 counterexample: with the 3 × 3 grid, tolerance 2 and 5 iterations the
convergence test fires on the very first sweep (`converged = true`), yet the
returned field still has the PRE-sweep interior value `0`, while the post-sweep
field of that sweep has interior value `1`.  The claim that the newly computed
post-sweep field is returned is therefore false. -/
theorem C2_counterexample_pre_sweep_returned :
    (solve 3 3 1 2 5 U0grid).converged = true ∧
    (solve 3 3 1 2 5 U0grid).field 1 1 = 0 ∧
    finite_difference 3 3 1 U0grid 1 1 = 1 := by
  refine ⟨?_, ?_, ?_⟩
  · rw [solve3x3_big_tol]
  · rw [solve3x3_big_tol]
    simp [U0grid]
  · rw [fd_U0grid, U1grid_center]

/-- C2 (amended): when the convergence test fires at some sweep, the solver
returns the PRE-sweep field that was current when the sweep began (the source
breaks out of the loop before `U = U_new`), with `converged = true` and the
current 0-based loop index. -/
theorem C2_amended_pre_sweep_field (Nx Ny : ℕ) (dx tol : ℚ) (fuel i : ℕ)
    (U : ℕ → ℕ → ℚ)
    (h : residual Nx Ny U (finite_difference Nx Ny dx U) < tol) :
    solveAux Nx Ny dx tol (fuel + 1) i U = ⟨U, true, some i, 1⟩ :=
  solveAux_converge Nx Ny dx tol fuel i U h

/-- Witness for the amended C2 at the 3 × 3 grid with tolerance 2. -/
theorem C2_amended_pre_sweep_field_witness :
    residual 3 3 U0grid (finite_difference 3 3 1 U0grid) < 2 ∧
    solveAux 3 3 1 2 (4 + 1) 0 U0grid = ⟨U0grid, true, some 0, 1⟩ :=
  ⟨by rw [res_fd_U0]; norm_num,
   C2_amended_pre_sweep_field 3 3 1 2 4 0 U0grid (by rw [res_fd_U0]; norm_num)⟩

/-- C3: boundary entries (row 0, row `Nx-1`, column 0, column `Ny-1`) are never
written: after any number of sweeps they equal the initial field's entries. -/
theorem C3_boundary_never_written (Nx Ny : ℕ) (dx : ℚ) (n : ℕ) (U : ℕ → ℕ → ℚ)
    (i j : ℕ) (h : i = 0 ∨ i = Nx - 1 ∨ j = 0 ∨ j = Ny - 1) :
    sweeps Nx Ny dx n U i j = U i j := by
  induction n generalizing U with
  | zero => rfl
  | succ n ih =>
    rw [show sweeps Nx Ny dx (n + 1) U
        = sweeps Nx Ny dx n (finite_difference Nx Ny dx U) from rfl,
      ih (finite_difference Nx Ny dx U), finite_difference_apply]
    exact if_neg (by omega)

/-- Witness for C3: the boundary point `(0, 1)` of the 3 × 3 grid after one sweep. -/
theorem C3_boundary_never_written_witness :
    ((0 : ℕ) = 0 ∨ (0 : ℕ) = 3 - 1 ∨ (1 : ℕ) = 0 ∨ (1 : ℕ) = 3 - 1) ∧
    sweeps 3 3 1 1 U0grid 0 1 = U0grid 0 1 :=
  ⟨by decide, C3_boundary_never_written 3 3 1 1 U0grid 0 1 (by decide)⟩

/-- C4 counterexample: on a 2 × 2 grid (no interior points) the solver does not
fail; it performs a (vacuous) sweep, converges immediately, and returns the
input field.  The claim that it raises `InvalidDimensions` before any sweep,
rather than returning a result, is therefore false. -/
theorem C4_counterexample_no_dimension_error :
    (solve 2 2 1 1 1 (fun _ _ => (5 : ℚ))).converged = true ∧
    (solve 2 2 1 1 1 (fun _ _ => (5 : ℚ))).iterations = 1 ∧
    (solve 2 2 1 1 1 (fun _ _ => (5 : ℚ))).field 0 0 = 5 := by
  refine ⟨?_, ?_, ?_⟩ <;> rw [solve2x2_const]

/-- C4 (amended): the code performs no dimension validation.  With `Nx < 3` or
`Ny < 3` there are no interior points, so a sweep is the identity, and (for any
positive tolerance and at least one iteration) the solver converges at loop
index 0 and returns the initial field unchanged. -/
theorem C4_amended_degenerate_grid_noop (Nx Ny : ℕ) (dx tol : ℚ) (m : ℕ)
    (U : ℕ → ℕ → ℚ) (hdim : Nx < 3 ∨ Ny < 3) :
    (∀ i j, finite_difference Nx Ny dx U i j = U i j) ∧
    (0 < tol → solve Nx Ny dx tol (m + 1) U = ⟨U, true, some 0, 1⟩) := by
  constructor
  · intro i j
    rw [fd_no_interior Nx Ny dx U hdim]
  · intro htol
    rw [solve]
    apply solveAux_converge
    rw [fd_no_interior Nx Ny dx U hdim,
      residual_eq_zero Nx Ny U U fun _ _ _ _ => rfl]
    exact htol

/-- Witness for the amended C4 on the 2 × 2 constant grid. -/
theorem C4_amended_degenerate_grid_noop_witness :
    ((2 : ℕ) < 3 ∨ (2 : ℕ) < 3) ∧ (0 : ℚ) < 1 ∧
    finite_difference 2 2 1 (fun _ _ => (5 : ℚ)) 0 0 = 5 ∧
    solve 2 2 1 1 (0 + 1) (fun _ _ => (5 : ℚ)) = ⟨(fun _ _ => (5 : ℚ)), true, some 0, 1⟩ :=
  ⟨by decide, by norm_num,
   (C4_amended_degenerate_grid_noop 2 2 1 1 0 (fun _ _ => (5 : ℚ)) (by decide)).1 0 0,
   (C4_amended_degenerate_grid_noop 2 2 1 1 0 (fun _ _ => (5 : ℚ)) (by decide)).2 (by norm_num)⟩

/-- C5 counterexample: with `tolerance = 0` the solver does not fail; it runs
its one allowed sweep and returns a normal non-converged result.  The claim
that it raises `InvalidParameter` before any sweep, rather than returning a
result, is therefore false. -/
theorem C5_counterexample_no_parameter_error :
    (solve 3 3 1 0 1 U0grid).converged = false ∧
    (solve 3 3 1 0 1 U0grid).iterations = 1 ∧
    (solve 3 3 1 0 1 U0grid).field 1 1 = 1 := by
  refine ⟨?_, ?_, ?_⟩ <;> rw [solve_tol_zero]
  exact U1grid_center

/-- C5 (amended): the code performs no parameter validation.  With
`tolerance ≤ 0` the strict test `residual < tolerance` can never fire (the
residual is a maximum of absolute values, hence `≥ 0`), so the solver performs
all `max_iterations` sweeps and returns `converged = false`; with
`max_iterations = 0` the loop body never runs and the initial field is
returned with `converged = false`. -/
theorem C5_amended_no_parameter_validation (Nx Ny : ℕ) (dx tol : ℚ) (m : ℕ)
    (U : ℕ → ℕ → ℚ) :
    (tol ≤ 0 → solve Nx Ny dx tol m U = ⟨sweeps Nx Ny dx m U, false, none, m⟩) ∧
    solve Nx Ny dx tol 0 U = ⟨U, false, none, 0⟩ := by
  constructor
  · intro htol
    rw [solve, solveAux_nonpos_tol Nx Ny dx tol htol m 0 U]
  · rfl

/-- Witness for the amended C5: tolerance 0 with one iteration, and zero
iterations with a positive tolerance. -/
theorem C5_amended_no_parameter_validation_witness :
    (0 : ℚ) ≤ 0 ∧
    solve 3 3 1 0 1 U0grid = ⟨sweeps 3 3 1 1 U0grid, false, none, 1⟩ ∧
    solve 3 3 1 (1/2) 0 U0grid = ⟨U0grid, false, none, 0⟩ :=
  ⟨le_refl 0,
   (C5_amended_no_parameter_validation 3 3 1 0 1 U0grid).1 (le_refl 0),
   (C5_amended_no_parameter_validation 3 3 1 (1/2) 0 U0grid).2⟩

/-- C6: the per-sweep residual bounds the absolute change `|new - old|` at
every point of the array, boundary included, and is attained at some point (or
the fields agree everywhere and it is `0`); the solver stops with
`converged = true` exactly when `residual < tolerance` holds strictly, and a
sweep with `residual = tolerance` (i.e. `tolerance ≤ residual`) does not stop
but continues into the next iteration. -/
theorem C6_residual_max_abs_strict_stop (Nx Ny : ℕ) (dx tol : ℚ) (fuel i : ℕ)
    (U : ℕ → ℕ → ℚ) :
    (∀ a b, a < Nx → b < Ny →
      |finite_difference Nx Ny dx U a b - U a b| ≤
        residual Nx Ny U (finite_difference Nx Ny dx U)) ∧
    (residual Nx Ny U (finite_difference Nx Ny dx U) = 0 ∨
      ∃ a b, a < Nx ∧ b < Ny ∧
        |finite_difference Nx Ny dx U a b - U a b| =
          residual Nx Ny U (finite_difference Nx Ny dx U)) ∧
    (residual Nx Ny U (finite_difference Nx Ny dx U) < tol →
      solveAux Nx Ny dx tol (fuel + 1) i U = ⟨U, true, some i, 1⟩) ∧
    (tol ≤ residual Nx Ny U (finite_difference Nx Ny dx U) →
      solveAux Nx Ny dx tol (fuel + 1) i U =
        ⟨(solveAux Nx Ny dx tol fuel (i + 1) (finite_difference Nx Ny dx U)).field,
         (solveAux Nx Ny dx tol fuel (i + 1) (finite_difference Nx Ny dx U)).converged,
         (solveAux Nx Ny dx tol fuel (i + 1) (finite_difference Nx Ny dx U)).convergedAt,
         (solveAux Nx Ny dx tol fuel (i + 1) (finite_difference Nx Ny dx U)).iterations + 1⟩) := by
  refine ⟨?_, ?_, ?_, ?_⟩
  · intro a b ha hb
    rw [abs_sub_comm]
    exact abs_sub_le_residual Nx Ny U (finite_difference Nx Ny dx U) a b ha hb
  · rcases residual_attained Nx Ny U (finite_difference Nx Ny dx U) with hz | ⟨a, b, ha, hb, he⟩
    · exact Or.inl hz
    · exact Or.inr ⟨a, b, ha, hb, by rw [abs_sub_comm]; exact he⟩
  · exact solveAux_converge Nx Ny dx tol fuel i U
  · intro h
    exact solveAux_step Nx Ny dx tol fuel i U (not_lt.2 h)

/-- Witness for C6 on the 3 × 3 grid: the residual bound at `(1, 1)`, the stop
with tolerance 2 (residual `1 < 2`), and the non-stop with tolerance 1
(residual `1`, and `1 < 1` fails). -/
theorem C6_residual_max_abs_strict_stop_witness :
    |finite_difference 3 3 1 U0grid 1 1 - U0grid 1 1| ≤
      residual 3 3 U0grid (finite_difference 3 3 1 U0grid) ∧
    solveAux 3 3 1 2 (0 + 1) 0 U0grid = ⟨U0grid, true, some 0, 1⟩ ∧
    solveAux 3 3 1 1 (0 + 1) 0 U0grid =
      ⟨(solveAux 3 3 1 1 0 (0 + 1) (finite_difference 3 3 1 U0grid)).field,
       (solveAux 3 3 1 1 0 (0 + 1) (finite_difference 3 3 1 U0grid)).converged,
       (solveAux 3 3 1 1 0 (0 + 1) (finite_difference 3 3 1 U0grid)).convergedAt,
       (solveAux 3 3 1 1 0 (0 + 1) (finite_difference 3 3 1 U0grid)).iterations + 1⟩ :=
  ⟨(C6_residual_max_abs_strict_stop 3 3 1 2 0 0 U0grid).1 1 1 (by decide) (by decide),
   (C6_residual_max_abs_strict_stop 3 3 1 2 0 0 U0grid).2.2.1 (by rw [res_fd_U0]; norm_num),
   (C6_residual_max_abs_strict_stop 3 3 1 1 0 0 U0grid).2.2.2 (by rw [res_fd_U0])⟩

/-- C7 counterexample: on the 3 × 3 scenario with tolerance 1/2 and two
iterations the solver does converge, but the reported loop index is the
0-based `1` (the source prints `Converged at iteration 1`), not `2` as the
claim states. -/
theorem C7_counterexample_reported_index :
    (solve 3 3 1 (1/2) 2 U0grid).converged = true ∧
    (solve 3 3 1 (1/2) 2 U0grid).convergedAt = some 1 ∧
    (some 1 : Option ℕ) ≠ some 2 := by
  have h : solve 3 3 1 (1/2) 2 U0grid = ⟨U1grid, true, some 1, 2⟩ :=
    solve3x3_small_tol (1/2) (by norm_num) (by norm_num) 0
  refine ⟨?_, ?_, by decide⟩ <;> rw [h]

/-- C7 (amended): for the 3 × 3 grid with boundary 1 and interior 0, and any
tolerance `0 < t < 1` with `max_iterations ≥ 2`: the interior point equals
exactly 1 after the first sweep, the residual of sweep 1 is 1 and of sweep 2
is 0, and the solver stops with `converged = true` after 2 sweeps, reporting
the 0-based loop index 1 (not 2). -/
theorem C7_amended_minimal_grid_scenario (t : ℚ) (m : ℕ)
    (h0 : 0 < t) (h1 : t < 1) (hm : 2 ≤ m) :
    finite_difference 3 3 1 U0grid 1 1 = 1 ∧
    residual 3 3 U0grid (finite_difference 3 3 1 U0grid) = 1 ∧
    residual 3 3 (finite_difference 3 3 1 U0grid)
      (finite_difference 3 3 1 (finite_difference 3 3 1 U0grid)) = 0 ∧
    (solve 3 3 1 t m U0grid).converged = true ∧
    (solve 3 3 1 t m U0grid).convergedAt = some 1 ∧
    (solve 3 3 1 t m U0grid).iterations = 2 := by
  obtain ⟨k, rfl⟩ : ∃ k, m = k + 2 := ⟨m - 2, by omega⟩
  have h := solve3x3_small_tol t h0 h1 k
  refine ⟨?_, res_fd_U0, ?_, ?_, ?_, ?_⟩
  · rw [fd_U0grid, U1grid_center]
  · rw [fd_U0grid]
    exact res_fd_U1
  · rw [h]
  · rw [h]
  · rw [h]

/-- Witness for the amended C7 at `t = 1/2`, `m = 2`. -/
theorem C7_amended_minimal_grid_scenario_witness :
    ((0 : ℚ) < 1/2 ∧ (1 : ℚ)/2 < 1 ∧ (2 : ℕ) ≤ 2) ∧
    (solve 3 3 1 (1/2) 2 U0grid).convergedAt = some 1 :=
  ⟨⟨by norm_num, by norm_num, le_refl 2⟩,
   (C7_amended_minimal_grid_scenario (1/2) 2 (by norm_num) (by norm_num)
     (le_refl 2)).2.2.2.2.1⟩

/-- C8: with `max_iterations = 1` and a tolerance below the first sweep's
residual, the solver returns normally: `converged = false`, one sweep
performed, and the field is exactly one sweep of the initial field. -/
theorem C8_nonconvergence_is_normal (Nx Ny : ℕ) (dx tol : ℚ) (U : ℕ → ℕ → ℚ)
    (h : tol < residual Nx Ny U (finite_difference Nx Ny dx U)) :
    solve Nx Ny dx tol 1 U = ⟨finite_difference Nx Ny dx U, false, none, 1⟩ := by
  rw [solve, show (1 : ℕ) = 0 + 1 from rfl,
    solveAux_step Nx Ny dx tol 0 0 U (not_lt.2 (le_of_lt h))]
  rfl

/-- Witness for C8 on the 3 × 3 grid with tolerance 1/2 (first-sweep residual 1). -/
theorem C8_nonconvergence_is_normal_witness :
    (1 : ℚ)/2 < residual 3 3 U0grid (finite_difference 3 3 1 U0grid) ∧
    solve 3 3 1 (1/2) 1 U0grid = ⟨finite_difference 3 3 1 U0grid, false, none, 1⟩ :=
  ⟨by rw [res_fd_U0]; norm_num,
   C8_nonconvergence_is_normal 3 3 1 (1/2) U0grid (by rw [res_fd_U0]; norm_num)⟩

/-- C9: maximum principle.  If every in-range value of the initial field lies
in `[lo, hi]`, then after any number of sweeps every in-range value (in
particular every interior value) still lies in `[lo, hi]`: each update is a
convex combination of four existing values. -/
theorem C9_maximum_principle (Nx Ny : ℕ) (dx : ℚ) (lo hi : ℚ) (n : ℕ)
    (U : ℕ → ℕ → ℚ)
    (h : ∀ i j, i < Nx → j < Ny → lo ≤ U i j ∧ U i j ≤ hi) :
    ∀ i j, i < Nx → j < Ny →
      lo ≤ sweeps Nx Ny dx n U i j ∧ sweeps Nx Ny dx n U i j ≤ hi :=
  sweeps_bounds Nx Ny dx lo hi n U h

/-- Witness for C9: the 3 × 3 grid's values all lie in `[0, 1]`, and so does
the interior point after two sweeps. -/
theorem C9_maximum_principle_witness :
    (0 : ℚ) ≤ sweeps 3 3 1 2 U0grid 1 1 ∧ sweeps 3 3 1 2 U0grid 1 1 ≤ 1 :=
  C9_maximum_principle 3 3 1 0 1 2 U0grid
    (by
      intro i j _ _
      simp only [U0grid]
      split_ifs <;> norm_num)
    1 1 (by decide) (by decide)

/-- C10: `finite_difference` never mutates its argument: in the embedded loop
state `(U, U_new)`, the `U` component after the whole write loop is the very
field that was passed in; all writes went to the fresh copy, which is the
returned field. -/
theorem C10_input_field_unchanged (Nx Ny : ℕ) (dx : ℚ) (U : ℕ → ℕ → ℚ) :
    (fd_pair Nx Ny dx U).1 = U :=
  foldl_fd_step_fst (interiorIdx Nx Ny) U U
